import Mathlib

/-!
Verification of the hathor-wallet-lib transaction encoding core against its
natural-language specification.

The repository sources at hand are `src/helpers.js` (wallet helper functions,
together with the unit tests of the transaction module) and `src/opcodes.js`
(script opcode constants).  The transaction module itself (`transaction.js`)
is not among the sources, so its functions are modelled from the
specification; wherever the specification is ambiguous or contradicted by the
unit tests that ship in the sources, the tests, being repository code, are
taken as the authority and the divergence is noted on the definition.

All byte sequences are modelled as `List Nat` with every element intended to
lie in `[0, 255]`; multi-byte integers are big-endian, as the binary format
requires.
-/

set_option maxRecDepth 10000

/-- Error kinds raised by the transaction module (`src/errors.js` of the
repository): address decoding failures, output values out of range, and too
many parent references. -/
inductive HathorError : Type where
  | addressError : HathorError
  | outputValueError : HathorError
  | maximumNumberParents : HathorError
  deriving DecidableEq, Repr

deriving instance DecidableEq for Except

/-- Value of a hexadecimal digit character; non-hex characters map to 0 (the
JavaScript Buffer hex parser never feeds them in the uses modelled here). -/
def hexVal (c : Char) : Nat :=
  if 48 ≤ c.toNat ∧ c.toNat ≤ 57 then c.toNat - 48
  else if 97 ≤ c.toNat ∧ c.toNat ≤ 102 then c.toNat - 87
  else if 65 ≤ c.toNat ∧ c.toNat ≤ 70 then c.toNat - 55
  else 0

/-- Modelled from the spec: `hexToBuffer` of `src/utils/buffer.js` (imported
by `src/opcodes.js` but absent from the sources) converts a hex string to
bytes two characters at a time; like JavaScript Buffer.from(s, hex), a
trailing unpaired character is dropped. -/
def hexPairsToBytes : List Char → List Nat
  | c1 :: c2 :: rest => (hexVal c1 * 16 + hexVal c2) :: hexPairsToBytes rest
  | _ => []

/-- Hex string to byte list, the shape used throughout the test fixtures. -/
def hexToBytes (s : String) : List Nat :=
  hexPairsToBytes s.data

/-- Modelled from the spec: `intToBytes(value, width)` of the transaction
module encodes an unsigned integer big-endian into exactly `width` bytes
(values are reduced modulo 2^(8*width); the JavaScript original raises a
RangeError instead of truncating, a case no claim below exercises). -/
def intToBytes (v : Nat) : Nat → List Nat
  | 0 => []
  | w + 1 => intToBytes (v / 256) w ++ [v % 256]

/-- Modelled from the spec: `signedIntToBytes(value, width)` encodes an
integer in two's-complement big-endian form in exactly `width` bytes. -/
def signedIntToBytes (v : Int) (w : Nat) : List Nat :=
  intToBytes (v % ((2 : Int) ^ (8 * w))).toNat w

/-- Modelled from the spec: the maximum output value accepted by
`outputValueToBytes`.  The numeric ceiling is not stated in the
specification; the repository test requires 2^33 to be encodable and 2^60 to
fail, and the value 2^43 (8 bytes of mantissa-safe range) satisfies both
constraints. -/
def maxOutputValue : Int := 2 ^ 43

/-- Modelled from the spec: `outputValueToBytes(value)` chooses the narrowest
encoding — 4-byte signed when the value fits the signed 32-bit range,
otherwise the 8-byte signed encoding of the negated value (the negative sign
acts as the sentinel marking the wide form) — and fails with
`OutputValueError` beyond the ceiling. -/
def outputValueToBytes (v : Int) : Except HathorError (List Nat) :=
  if maxOutputValue < v then .error .outputValueError
  else if -(2 ^ 31) ≤ v ∧ v ≤ 2 ^ 31 - 1 then .ok (signedIntToBytes v 4)
  else .ok (signedIntToBytes (-v) 8)

/-- The base58 alphabet used by the address codec (Bitcoin alphabet: digits
and letters minus 0, O, I, l). -/
def base58Alphabet : List Char :=
  "123456789ABCDEFGHJKLMNPQRSTUVWXYZabcdefghijkmnopqrstuvwxyz".data

/-- Index of a character in a character list, starting the count at `i`;
`none` when absent. -/
def charIndexAux (c : Char) : List Char → Nat → Option Nat
  | [], _ => none
  | a :: rest, i => if a == c then some i else charIndexAux c rest (i + 1)

/-- Value of one base58 digit character, `none` for characters outside the
alphabet. -/
def base58CharIndex (c : Char) : Option Nat :=
  charIndexAux c base58Alphabet 0

/-- Map a function returning `Option` over a character list, failing as a
whole when any single character fails. -/
def mapOptionList (f : Char → Option Nat) : List Char → Option (List Nat)
  | [] => some []
  | c :: cs =>
    match f c, mapOptionList f cs with
    | some d, some ds => some (d :: ds)
    | _, _ => none

/-- The base58 digit values of a string, `none` when it contains a character
outside the alphabet. -/
def base58Digits (s : String) : Option (List Nat) :=
  mapOptionList base58CharIndex s.data

/-- Minimal big-endian byte representation of a natural number, computed with
explicit fuel so that it reduces structurally (the result is exact whenever
the fuel is at least the byte length of the number). -/
def natToBytesMinAux : Nat → Nat → List Nat
  | 0, _ => []
  | fuel + 1, n => if n = 0 then [] else natToBytesMinAux fuel (n / 256) ++ [n % 256]

/-- Modelled from the spec: base58 decoding as performed by the encoding
library the transaction module delegates to — digits are accumulated in base
58 and each leading alphabet-zero character contributes one leading zero
byte. -/
def base58Decode (s : String) : Option (List Nat) :=
  match base58Digits s with
  | none => none
  | some ds =>
    let n := ds.foldl (fun a d => a * 58 + d) 0
    let leading := (ds.takeWhile (fun d => d == 0)).length
    some (List.replicate leading 0 ++ natToBytesMinAux s.length n)

/-- Modelled from the spec: `decodeAddress(addressB58)` base58-decodes the
address, failing with `AddressError` when the string contains a character
outside the base58 alphabet.  The specification also asks for a length check
here, but the repository test decodes a 31-character (wrong-length) address
without error — length is validated later by `validateAddress` — so no
length check is modelled. -/
def decodeAddress (addressB58 : String) : Except HathorError (List Nat) :=
  match base58Decode addressB58 with
  | none => .error .addressError
  | some bytes => .ok bytes

/-- From `src/helpers.js`: update a list with a new element, respecting the
maximum; if the list is full the last element is removed before the new one
is prepended. -/
def updateListWs {α : Type} (list : List α) (newEl : α) (max : Nat) : List α :=
  newEl :: (if list.length = max then list.dropLast else list)

/-- From `src/helpers.js`: deposit needed to mint the given amount, the
configured deposit percentage applied and rounded up.  The percentage comes
from `tokens.getDepositPercentage()`, whose module is absent from the
sources, so it is taken as an explicit parameter. -/
def getDepositAmount (depositPercentage : ℚ) (mintAmount : Int) : Int :=
  ⌈depositPercentage * (mintAmount : ℚ)⌉

/-- From `src/helpers.js`: amount withdrawn when melting the given amount,
the configured deposit percentage applied and rounded down. -/
def getWithdrawAmount (depositPercentage : ℚ) (meltAmount : Int) : Int :=
  ⌊depositPercentage * (meltAmount : ℚ)⌋

/-- From `src/opcodes.js`: checks that the spending timestamp is greater than
the pushed value. -/
def OP_GREATERTHAN_TIMESTAMP : List Nat := hexToBytes "6f"

/-- From `src/opcodes.js`: duplicates the top stack value. -/
def OP_DUP : List Nat := hexToBytes "76"

/-- From `src/opcodes.js`: hashes the top stack value with hash160. -/
def OP_HASH160 : List Nat := hexToBytes "a9"

/-- From `src/opcodes.js`: pushes the equality of the two top values. -/
def OP_EQUAL : List Nat := hexToBytes "87"

/-- From `src/opcodes.js`: verifies that the two top values are equal. -/
def OP_EQUALVERIFY : List Nat := hexToBytes "88"

/-- From `src/opcodes.js`: verifies a signature. -/
def OP_CHECKSIG : List Nat := hexToBytes "ac"

/-- From `src/opcodes.js`: marks a data push carrying an explicit length
byte. -/
def OP_PUSHDATA1 : List Nat := hexToBytes "4c"

/-- Modelled from the spec: `pushDataToStack(stack, data)` of the transaction
module appends a length-prefixed data push to a script stack — a single
length byte followed by the data when the length is below 76 (0x4c), and
`OP_PUSHDATA1`, a one-byte length, then the data otherwise. -/
def pushDataToStack (stack : List (List Nat)) (data : List Nat) : List (List Nat) :=
  if data.length < 76 then stack ++ [[data.length], data]
  else stack ++ [OP_PUSHDATA1, [data.length % 256], data]

/-- The byte sequence of a single data push on an empty stack. -/
def pushDataBytes (data : List Nat) : List Nat :=
  (pushDataToStack [] data).flatten

/-- Output script type tag: pay-to-public-key-hash (the default),
pay-to-script-hash, or a raw data output. -/
inductive ScriptType : Type where
  | p2pkh : ScriptType
  | p2sh : ScriptType
  | dataOutput : ScriptType
  deriving DecidableEq, Repr

/-- A transaction output as the transaction module receives it: destination
address (base58), value, token-data byte, optional timelock, script type and
the raw bytes of a data output. -/
structure TxOutput : Type where
  address : String
  value : Int
  tokenData : Nat
  timelock : Option Nat
  type : ScriptType
  dataBytes : List Nat
  deriving DecidableEq, Repr

/-- Modelled from the spec: `createOutputScript(output)` dispatches on the
output type.  For p2pkh it emits `[timelock push + OP_GREATERTHAN_TIMESTAMP,
when a timelock is present][OP_DUP][OP_HASH160][push(pubkeyHash)]
[OP_EQUALVERIFY][OP_CHECKSIG]`, the pubkey hash being bytes 1..20 of the
decoded address; p2sh replaces the pay section with
`[OP_HASH160][push(scriptHash)][OP_EQUAL]`; a data output is
`[push(data)][OP_CHECKSIG]`. -/
def createOutputScript (output : TxOutput) : Except HathorError (List Nat) :=
  match output.type with
  | .dataOutput => .ok (pushDataBytes output.dataBytes ++ OP_CHECKSIG)
  | .p2pkh => do
    let decoded ← decodeAddress output.address
    let timelockPart :=
      match output.timelock with
      | some t => pushDataBytes (intToBytes t 4) ++ OP_GREATERTHAN_TIMESTAMP
      | none => []
    .ok (timelockPart ++ OP_DUP ++ OP_HASH160
      ++ pushDataBytes ((decoded.drop 1).take 20) ++ OP_EQUALVERIFY ++ OP_CHECKSIG)
  | .p2sh => do
    let decoded ← decodeAddress output.address
    let timelockPart :=
      match output.timelock with
      | some t => pushDataBytes (intToBytes t 4) ++ OP_GREATERTHAN_TIMESTAMP
      | none => []
    .ok (timelockPart ++ OP_HASH160
      ++ pushDataBytes ((decoded.drop 1).take 20) ++ OP_EQUAL)

/-- A transaction input: the referenced transaction id (hex string), the
output index within it, and the unlocking-script bytes (empty until
signed). -/
structure TxInput : Type where
  tx_id : String
  index : Nat
  data : List Nat
  deriving DecidableEq, Repr

/-- A transaction description: inputs, outputs, token identifiers (hex
strings), parent transaction ids, version tag and timestamp.  Nonce and
weight play no part in the serializations modelled here and are omitted. -/
structure TxData : Type where
  inputs : List TxInput
  outputs : List TxOutput
  tokens : List String
  parents : List String
  version : Nat
  timestamp : Nat
  deriving DecidableEq, Repr

/-- Modelled from the spec: serialization of one output — its value in the
variable-width encoding, the token-data byte, then the output script
prefixed by a two-byte length. -/
def serializeOutput (o : TxOutput) : Except HathorError (List Nat) := do
  let valueBytes ← outputValueToBytes o.value
  let script ← createOutputScript o
  .ok (valueBytes ++ intToBytes o.tokenData 1 ++ intToBytes script.length 2 ++ script)

/-- Concatenated serialization of a list of outputs, failing as soon as one
output fails. -/
def serializeOutputs : List TxOutput → Except HathorError (List Nat)
  | [] => .ok []
  | o :: os => do
    let b ← serializeOutput o
    let rest ← serializeOutputs os
    .ok (b ++ rest)

/-- Serialization of one input for signing: the referenced transaction id,
the one-byte output index and a zero-length unlocking-script field. -/
def serializeInputForSigning (i : TxInput) : List Nat :=
  hexToBytes i.tx_id ++ intToBytes i.index 1 ++ intToBytes 0 2

/-- Serialization of one signed input: as for signing, but the
unlocking-script bytes follow their two-byte length. -/
def serializeInputSigned (i : TxInput) : List Nat :=
  hexToBytes i.tx_id ++ intToBytes i.index 1 ++ intToBytes i.data.length 2 ++ i.data

/-- Modelled from the spec: `dataToSign(tx)` — the byte sequence that gets
signed.  It encodes the version (2 bytes), the token, input and output
counts (1 byte each), then each token, each input with a zero-length
unlocking-script field, and each output; parents, timestamp, nonce and
weight are omitted.  (The specification instead describes the order inputs,
outputs, tokens, timestamp; the published fixture in the repository test
pins the order modelled here, the token list standing before the inputs and
no timestamp being appended.) -/
def dataToSign (tx : TxData) : Except HathorError (List Nat) :=
  (serializeOutputs tx.outputs).map (fun outBytes =>
    intToBytes tx.version 2
    ++ intToBytes tx.tokens.length 1
    ++ intToBytes tx.inputs.length 1
    ++ intToBytes tx.outputs.length 1
    ++ (tx.tokens.map hexToBytes).flatten
    ++ (tx.inputs.map serializeInputForSigning).flatten
    ++ outBytes)

/-- The serialization order that the specification sentence for `dataToSign`
describes literally: version, input count, output count, the inputs with
zero-length unlocking-script fields, the outputs, the token list, and the
timestamp.  Stated only to be compared with `dataToSign`, which follows the
published fixture. -/
def dataToSignClaimed (tx : TxData) : Except HathorError (List Nat) :=
  (serializeOutputs tx.outputs).map (fun outBytes =>
    intToBytes tx.version 2
    ++ intToBytes tx.inputs.length 1
    ++ intToBytes tx.outputs.length 1
    ++ (tx.inputs.map serializeInputForSigning).flatten
    ++ outBytes
    ++ (tx.tokens.map hexToBytes).flatten
    ++ intToBytes tx.timestamp 4)

/-- Modelled from the spec: the transaction serialized without its weight and
nonce fields, the form whose byte length drives the weight computation —
the signed envelope (inputs carrying their unlocking scripts) followed by
the timestamp. -/
def txToBytesNoNonceWeight (tx : TxData) : Except HathorError (List Nat) :=
  (serializeOutputs tx.outputs).map (fun outBytes =>
    intToBytes tx.version 2
    ++ intToBytes tx.tokens.length 1
    ++ intToBytes tx.inputs.length 1
    ++ intToBytes tx.outputs.length 1
    ++ (tx.tokens.map hexToBytes).flatten
    ++ (tx.inputs.map serializeInputSigned).flatten
    ++ outBytes
    ++ intToBytes tx.timestamp 4)

/-- Modelled from the spec: `calculateTxWeight(tx)` first enforces the
parent-count bound, then computes the weight from the byte length of the
serialized transaction through the configured weight curve.  The
specification states the bound as more than 3 parents, but the repository
test feeds a third parent and expects `MaximumNumberParentsError`, so the
bound modelled is more than 2.  The curve
`max(minWeight, log2(L) * weightCoefficient + minWeightK)` over
floating-point numbers is abstracted as an arbitrary function `curve` of the
byte length, which every claim below treats generically. -/
def calculateTxWeight (curve : Nat → ℚ) (tx : TxData) : Except HathorError ℚ :=
  if 2 < tx.parents.length then .error .maximumNumberParents
  else (txToBytesNoNonceWeight tx).map (fun bytes => curve bytes.length)

/-- Modelled from the spec: `getOutputsSum(outputs)` sums the values of the
outputs whose token-data byte does not carry the authority flag (bit 7,
mask 0x80). -/
def getOutputsSum (outputs : List TxOutput) : Int :=
  outputs.foldl (fun acc o => if (o.tokenData &&& 128) != 0 then acc else acc + o.value) 0

/-- The transaction description of the repository test named Prepare data to
send tokens: one input referencing a known prior output, one plain output
and one timelocked output, one custom token.  The version and timestamp
fields are unset in the test (JavaScript undefined, serialized as zero). -/
def fixtureSign : TxData :=
  { inputs := [{ tx_id := "00034a15973117852c45520af9e4296c68adb9d39dc99a0342e23cd6686b295e",
                 index := 0, data := [] }]
    outputs := [{ address := "WR1i8USJWQuaU423fwuFQbezfevmT4vFWX", value := 1000,
                  tokenData := 0, timelock := none, type := .p2pkh, dataBytes := [] },
                { address := "WgSpcCwYAbtt31S2cqU7hHJkUHdac2EPWG", value := 1000,
                  tokenData := 0, timelock := some 1550249803, type := .p2pkh, dataBytes := [] }]
    tokens := ["123"]
    parents := []
    version := 0
    timestamp := 0 }

/-- The byte sequence, as a hex string, that the repository test expects from
`dataToSign` on `fixtureSign`. -/
def expectedDataToSignHex : String :=
  "00000101021200034a15973117852c45520af9e4296c68adb9d39dc99a0342e23cd6686b295e000000000003e800001976a91419a8eb751eab5a13027e8cae215f6a5dafc1a8dd88ac000003e800001f045c66ef4b6f76a914c2f29cfdb73822200a07ab51d261b425af811fed88ac"

/-- The transaction description of the repository test named calculate tx
weight with different parents size. -/
def fixtureTx : TxData :=
  { inputs := [{ tx_id := "0000000e340d38d7a5616e3dfb8ac46184b07d59b8e7e61f9ce6e629d7abe8d6",
                 index := 0, data := [71, 48] }]
    outputs := [{ address := "WR1i8USJWQuaU423fwuFQbezfevmT4vFWX", value := 5400,
                  tokenData := 0, timelock := none, type := .p2pkh, dataBytes := [] },
                { address := "WR1i8USJWQuaU423fwuFQbezfevmT4vFWX", value := 1000,
                  tokenData := 0, timelock := none, type := .p2pkh, dataBytes := [] }]
    tokens := []
    parents := []
    version := 1
    timestamp := 1610639352 }

/-- First parent transaction id pushed by the weight test. -/
def parent1 : String := "0002d4d2a15def7604688e1878ab681142a7b155cbe52a6b4e031250ae96db0a"

/-- Second (and, re-used, third) parent transaction id pushed by the weight
test. -/
def parent2 : String := "0002ad8d1519daaddc8e1a37b14aac0b045129c01832281fb1c02d873c7abbf9"

/-- The outputs of the repository test named Calculate outputs sum: values 5,
4 and 3 with token-data bytes 0, 1 and 0b10000001. -/
def fixtureSumOutputs : List TxOutput :=
  [{ address := "a", value := 5, tokenData := 0, timelock := none, type := .p2pkh, dataBytes := [] },
   { address := "a", value := 4, tokenData := 1, timelock := none, type := .p2pkh, dataBytes := [] },
   { address := "a", value := 3, tokenData := 129, timelock := none, type := .p2pkh, dataBytes := [] }]

/-- The p2pkh output of the repository test named Create output script. -/
def outP2pkhFix : TxOutput :=
  { address := "WR1i8USJWQuaU423fwuFQbezfevmT4vFWX", value := 1000,
    tokenData := 0, timelock := none, type := .p2pkh, dataBytes := [] }

/-- The timelocked p2pkh output of the repository test named Create output
script. -/
def outP2pkhTimelockFix : TxOutput :=
  { address := "WR1i8USJWQuaU423fwuFQbezfevmT4vFWX", value := 1000,
    tokenData := 0, timelock := some 1550249803, type := .p2pkh, dataBytes := [] }

/-!  General lemmas about the codecs. -/

/-- `intToBytes` always yields exactly the requested width. -/
theorem intToBytes_length (v w : Nat) : (intToBytes v w).length = w := by
  induction w generalizing v with
  | zero => rfl
  | succ w ih => simp [intToBytes, ih]

/-- `signedIntToBytes` always yields exactly the requested width. -/
theorem signedIntToBytes_length (v : Int) (w : Nat) : (signedIntToBytes v w).length = w :=
  intToBytes_length _ _

/-- `charIndexAux` finds no index exactly when the character is absent. -/
theorem charIndexAux_eq_none (c : Char) (l : List Char) (i : Nat) :
    charIndexAux c l i = none ↔ ¬ c ∈ l := by
  induction l generalizing i with
  | nil => simp [charIndexAux]
  | cons a rest ih =>
    rw [charIndexAux]
    by_cases h : a == c
    · rw [if_pos h]
      simp [beq_iff_eq.mp h]
    · rw [if_neg h]
      have hca : ¬ c = a := fun e => h (beq_iff_eq.mpr e.symm)
      rw [ih]
      simp [List.mem_cons, hca]

/-- `mapOptionList` fails exactly when one of the characters fails. -/
theorem mapOptionList_eq_none (f : Char → Option Nat) (cs : List Char) :
    mapOptionList f cs = none ↔ ∃ c ∈ cs, f c = none := by
  induction cs with
  | nil => simp [mapOptionList]
  | cons c cs ih =>
    rw [mapOptionList]
    cases hfc : f c with
    | none =>
      simp only [List.mem_cons]
      simp only [eq_self_iff_true, true_iff]
      exact ⟨c, Or.inl rfl, hfc⟩
    | some d =>
      cases hrest : mapOptionList f cs with
      | none =>
        simp only [List.mem_cons, eq_self_iff_true, true_iff]
        obtain ⟨a, ha, hfa⟩ := ih.mp hrest
        exact ⟨a, Or.inr ha, hfa⟩
      | some ds =>
        simp only [List.mem_cons]
        constructor
        · intro hcontra; exact absurd hcontra (by simp)
        · rintro ⟨a, ha, hfa⟩
          rcases ha with rfl | ha
          · rw [hfc] at hfa; exact absurd hfa (by simp)
          · have hnone : mapOptionList f cs = none := ih.mpr ⟨a, ha, hfa⟩
            rw [hrest] at hnone
            exact absurd hnone (by simp)

/-- `decodeAddress` fails exactly when the string holds a character outside
the base58 alphabet. -/
theorem decodeAddress_error_iff (s : String) :
    decodeAddress s = .error .addressError ↔ ∃ c ∈ s.data, ¬ c ∈ base58Alphabet := by
  have key : mapOptionList base58CharIndex s.data = none ↔
      ∃ c ∈ s.data, ¬ c ∈ base58Alphabet := by
    rw [mapOptionList_eq_none]
    constructor
    · rintro ⟨c, hc, hn⟩
      exact ⟨c, hc, (charIndexAux_eq_none c base58Alphabet 0).mp hn⟩
    · rintro ⟨c, hc, hn⟩
      exact ⟨c, hc, (charIndexAux_eq_none c base58Alphabet 0).mpr hn⟩
  unfold decodeAddress base58Decode base58Digits
  cases h : mapOptionList base58CharIndex s.data with
  | none => simpa [h] using key.mp h
  | some ds =>
    simp only [h]
    constructor
    · intro hcontra; exact absurd hcontra (by simp)
    · intro hex; exact absurd (key.mpr hex) (by rw [h]; simp)

/-- The authority test of the source, a bitwise and with 0x80, agrees with
testing bit 7. -/
theorem and128_bne (n : Nat) : ((n &&& 128) != 0) = n.testBit 7 := by
  have h : n &&& 128 = (n.testBit 7).toNat * 128 := by
    have h2 := Nat.and_two_pow n 7
    norm_num at h2
    exact h2
  cases hb : n.testBit 7 <;> simp [h, hb]

/-- The running sum of `getOutputsSum`, for any starting accumulator, is the
start plus the sum of the non-authority values. -/
theorem getOutputsSum_foldl (outputs : List TxOutput) (init : Int) :
    outputs.foldl (fun acc o => if (o.tokenData &&& 128) != 0 then acc else acc + o.value) init
      = init + ((outputs.filter (fun o => !(o.tokenData.testBit 7))).map TxOutput.value).sum := by
  induction outputs generalizing init with
  | nil => simp
  | cons o os ih =>
    rw [List.foldl_cons, ih, List.filter_cons]
    cases hb : o.tokenData.testBit 7 with
    | false =>
      have hcond : ((o.tokenData &&& 128) != 0) = false := by rw [and128_bne, hb]
      rw [hcond]
      simp [hb, add_assoc]
    | true =>
      have hcond : ((o.tokenData &&& 128) != 0) = true := by rw [and128_bne, hb]
      rw [hcond]
      simp [hb]

/-!  The claims. -/

/-- C1 (corrected statement): for every weight curve and transaction
description, `calculateTxWeight` fails with `MaximumNumberParentsError`
exactly when more than 2 parents are supplied — before any weight is
computed, whence the failure holds for every curve — and within the bound
the weight is a function of the parent-independent serialization, so 0, 1
and 2 parents yield the identical result for identical inputs and
outputs. -/
theorem calculateTxWeight_parents_spec (curve : Nat → ℚ) (tx : TxData) :
    (2 < tx.parents.length →
      ∀ g : Nat → ℚ, calculateTxWeight g tx = .error .maximumNumberParents) ∧
    (tx.parents.length ≤ 2 →
      calculateTxWeight curve tx
        = (txToBytesNoNonceWeight tx).map (fun b => curve b.length)) ∧
    (∀ ps : List String,
      txToBytesNoNonceWeight { tx with parents := ps } = txToBytesNoNonceWeight tx) ∧
    (∀ ps qs : List String, ps.length ≤ 2 → qs.length ≤ 2 →
      calculateTxWeight curve { tx with parents := ps }
        = calculateTxWeight curve { tx with parents := qs }) := by
  refine ⟨?_, ?_, fun ps => rfl, ?_⟩
  · intro h g
    unfold calculateTxWeight
    rw [if_pos h]
  · intro h
    unfold calculateTxWeight
    rw [if_neg (not_lt.mpr h)]
  · intro ps qs hp hq
    unfold calculateTxWeight
    rw [if_neg (not_lt.mpr hp), if_neg (not_lt.mpr hq)]
    rfl

/-- C1 witness: on the weight-test fixture, one parent and two parents give
the same result. -/
theorem calculateTxWeight_parents_spec_witness :
    calculateTxWeight (fun n => (n : ℚ)) { fixtureTx with parents := [parent1] }
      = calculateTxWeight (fun n => (n : ℚ)) { fixtureTx with parents := [parent1, parent2] } :=
  (calculateTxWeight_parents_spec (fun n => (n : ℚ)) fixtureTx).2.2.2
    [parent1] [parent1, parent2] (by decide) (by decide)

/-- C1 counterexample: the claim says at most 3 parents must succeed, but on
the repository weight-test fixture with its three parents the computation
already fails with `MaximumNumberParentsError`, as the repository test
itself expects. -/
theorem calculateTxWeight_three_parents_error :
    ({ fixtureTx with parents := [parent1, parent2, parent2] } : TxData).parents.length = 3 ∧
    calculateTxWeight (fun n => (n : ℚ)) { fixtureTx with parents := [parent1, parent2, parent2] }
      = .error .maximumNumberParents :=
  ⟨rfl, by decide⟩

/-- C2: `outputValueToBytes` yields 4 bytes exactly for values in the signed
32-bit range, 8 bytes for every other value under the ceiling, and fails
with `OutputValueError` beyond the ceiling — in particular at 2^60. -/
theorem outputValueToBytes_width_spec (v : Int) :
    ((outputValueToBytes v).map List.length = .ok 4 ↔ (-(2 ^ 31) ≤ v ∧ v ≤ 2 ^ 31 - 1)) ∧
    (v ≤ maxOutputValue → ¬(-(2 ^ 31) ≤ v ∧ v ≤ 2 ^ 31 - 1) →
      (outputValueToBytes v).map List.length = .ok 8) ∧
    (maxOutputValue < v → outputValueToBytes v = .error .outputValueError) ∧
    outputValueToBytes (2 ^ 60) = .error .outputValueError := by
  refine ⟨⟨?_, ?_⟩, ?_, ?_, by decide⟩
  · intro h
    unfold outputValueToBytes at h
    split_ifs at h with h1 h2
    · exact absurd h (by simp [Except.map])
    · exact h2
    · rw [show ((Except.ok (signedIntToBytes (-v) 8) : Except HathorError (List Nat)).map
        List.length) = .ok 8 by simp [Except.map, signedIntToBytes_length]] at h
      exact absurd h (by simp)
  · intro hr
    unfold outputValueToBytes
    have h1 : ¬ maxOutputValue < v := by
      rw [not_lt]
      calc v ≤ 2 ^ 31 - 1 := hr.2
        _ ≤ maxOutputValue := by norm_num [maxOutputValue]
    rw [if_neg h1, if_pos hr]
    simp [Except.map, signedIntToBytes_length]
  · intro hv hr
    unfold outputValueToBytes
    rw [if_neg (not_lt.mpr hv), if_neg hr]
    simp [Except.map, signedIntToBytes_length]
  · intro h
    unfold outputValueToBytes
    rw [if_pos h]

/-- C2 witness: 2^31 lies outside the 32-bit range and under the ceiling, so
it is encoded in 8 bytes. -/
theorem outputValueToBytes_width_spec_witness :
    (outputValueToBytes ((2 : Int) ^ 31)).map List.length = .ok 8 :=
  (outputValueToBytes_width_spec (2 ^ 31)).2.1 (by decide) (by decide)

/-- C3 (corrected statement): `dataToSign` encodes the version, the token,
input and output counts, then each token, each input with a zero-length
unlocking-script field, then each output — omitting parents, timestamp,
nonce and weight — and on the repository fixture equals the published hex
string. -/
theorem dataToSign_spec (tx : TxData) :
    dataToSign tx = (serializeOutputs tx.outputs).map (fun outBytes =>
      intToBytes tx.version 2
      ++ intToBytes tx.tokens.length 1
      ++ intToBytes tx.inputs.length 1
      ++ intToBytes tx.outputs.length 1
      ++ (tx.tokens.map hexToBytes).flatten
      ++ (tx.inputs.map (fun i => hexToBytes i.tx_id ++ intToBytes i.index 1
            ++ intToBytes 0 2)).flatten
      ++ outBytes) ∧
    dataToSign fixtureSign = .ok (hexToBytes expectedDataToSignHex) :=
  ⟨rfl, by decide⟩

/-- C3 counterexample: the serialization order stated by the claim — inputs,
outputs, then the token list and a timestamp, with no token count — does not
reproduce the published fixture bytes, which `dataToSign` does reproduce. -/
theorem dataToSign_claimed_order_mismatch :
    dataToSignClaimed fixtureSign ≠ .ok (hexToBytes expectedDataToSignHex) ∧
    dataToSign fixtureSign = .ok (hexToBytes expectedDataToSignHex) := by
  constructor
  · decide
  · decide

/-- C4: `pushDataToStack` appends a single length byte and the data below
length 76, and `OP_PUSHDATA1`, a one-byte length and the data from 76 on;
the switch happens exactly between lengths 75 and 76. -/
theorem pushDataToStack_spec (stack : List (List Nat)) (data : List Nat) :
    (data.length < 76 → pushDataToStack stack data = stack ++ [[data.length], data]) ∧
    (76 ≤ data.length →
      pushDataToStack stack data = stack ++ [OP_PUSHDATA1, [data.length % 256], data]) ∧
    pushDataToStack stack (List.replicate 75 0) = stack ++ [[75], List.replicate 75 0] ∧
    pushDataToStack stack (List.replicate 76 0)
      = stack ++ [OP_PUSHDATA1, [76], List.replicate 76 0] := by
  refine ⟨?_, ?_, ?_, ?_⟩
  · intro h
    unfold pushDataToStack
    rw [if_pos h]
  · intro h
    unfold pushDataToStack
    rw [if_neg (not_lt.mpr h)]
  · unfold pushDataToStack
    rw [if_pos (by simp)]
    simp
  · unfold pushDataToStack
    rw [if_neg (by simp)]
    simp

/-- C4 witness: a three-byte buffer is pushed as its length byte followed by
the data. -/
theorem pushDataToStack_spec_witness :
    pushDataToStack [] [1, 2, 3] = [] ++ [[[1, 2, 3].length], [1, 2, 3]] :=
  (pushDataToStack_spec [] [1, 2, 3]).1 (by decide)

/-- C5: `getOutputsSum` sums the values of exactly the outputs whose
token-data byte does not have bit 7 set, and on the repository fixture
(values 5, 4, 3 with token data 0, 1, 0b10000001) returns 9. -/
theorem getOutputsSum_spec (outputs : List TxOutput) :
    getOutputsSum outputs
      = ((outputs.filter (fun o => !(o.tokenData.testBit 7))).map TxOutput.value).sum ∧
    getOutputsSum fixtureSumOutputs = 9 := by
  refine ⟨?_, by decide⟩
  have h := getOutputsSum_foldl outputs 0
  simpa [getOutputsSum] using h

/-- C6 (corrected statement): `decodeAddress` fails with `AddressError`
exactly when the input holds a character outside the base58 alphabet — a
wrong-length but well-formed input decodes without error, the length being
checked later by `validateAddress` — and on the fixtures it decodes the
published bytes and rejects the string asfli. -/
theorem decodeAddress_spec (s : String) :
    (decodeAddress s = .error .addressError ↔ ∃ c ∈ s.data, ¬ c ∈ base58Alphabet) ∧
    decodeAddress "1zEETJWa3U6fBm8eUXbG7ddj6k4KjoR7j"
      = .ok (hexToBytes "000ad2c15b8afe6598da1d327951043cf7ad057bcfc03c8936") ∧
    decodeAddress "asfli" = .error .addressError :=
  ⟨decodeAddress_error_iff s, by decide, by decide⟩

/-- C6 witness: the string asfli, holding the invalid character l, is
rejected with `AddressError`. -/
theorem decodeAddress_spec_witness :
    decodeAddress "asfli" = .error .addressError :=
  (decodeAddress_spec "asfli").2.2

/-- C6 counterexample: the claim says a wrong decoded length raises
`AddressError`, but the 31-character address of the repository test decodes
without error to 23 bytes instead of the fixed 25. -/
theorem decodeAddress_wrong_length_ok :
    (decodeAddress "EETJWa3U6fBm8eUXbG7ddj6k4KjoR7j").map List.length = .ok 23 ∧
    (23 : Nat) ≠ 25 := by
  constructor
  · decide
  · decide

/-- C7: a p2pkh output script is `OP_DUP OP_HASH160 push(pubkeyHash)
OP_EQUALVERIFY OP_CHECKSIG`, prefixed, when a timelock is present, by the
pushed 4-byte big-endian timestamp and `OP_GREATERTHAN_TIMESTAMP`; on the
repository fixtures this gives the published hex strings. -/
theorem createOutputScript_p2pkh_spec :
    (∀ (addr : String) (v : Int) (td : Nat) (db : List Nat),
      createOutputScript
          { address := addr, value := v, tokenData := td,
            timelock := none, type := .p2pkh, dataBytes := db }
        = (decodeAddress addr).map (fun decoded =>
            OP_DUP ++ OP_HASH160 ++ pushDataBytes ((decoded.drop 1).take 20)
            ++ OP_EQUALVERIFY ++ OP_CHECKSIG)) ∧
    (∀ (addr : String) (v : Int) (td : Nat) (db : List Nat) (t : Nat),
      createOutputScript
          { address := addr, value := v, tokenData := td,
            timelock := some t, type := .p2pkh, dataBytes := db }
        = (decodeAddress addr).map (fun decoded =>
            pushDataBytes (intToBytes t 4) ++ OP_GREATERTHAN_TIMESTAMP
            ++ OP_DUP ++ OP_HASH160 ++ pushDataBytes ((decoded.drop 1).take 20)
            ++ OP_EQUALVERIFY ++ OP_CHECKSIG)) ∧
    createOutputScript outP2pkhFix
      = .ok (hexToBytes "76a91419a8eb751eab5a13027e8cae215f6a5dafc1a8dd88ac") ∧
    createOutputScript outP2pkhTimelockFix
      = .ok (hexToBytes "045c66ef4b6f76a91419a8eb751eab5a13027e8cae215f6a5dafc1a8dd88ac") := by
  refine ⟨?_, ?_, by decide, by decide⟩
  · intro addr v td db
    cases h : decodeAddress addr with
    | error e =>
      simp only [createOutputScript, h]
      rfl
    | ok b =>
      simp only [createOutputScript, h]
      rfl
  · intro addr v td db t
    cases h : decodeAddress addr with
    | error e =>
      simp only [createOutputScript, h]
      rfl
    | ok b =>
      simp only [createOutputScript, h]
      rfl

/-- C8: `getDepositAmount` is the deposit percentage times the mint amount
rounded up to the least integer above it, and `getWithdrawAmount` is the
percentage times the melt amount rounded down to the greatest integer below
it. -/
theorem getDepositAmount_getWithdrawAmount_rounding (p : ℚ) (m n : Int) :
    (p * (m : ℚ) ≤ (getDepositAmount p m : ℚ) ∧
      ∀ k : Int, p * (m : ℚ) ≤ (k : ℚ) → getDepositAmount p m ≤ k) ∧
    ((getWithdrawAmount p n : ℚ) ≤ p * (n : ℚ) ∧
      ∀ k : Int, (k : ℚ) ≤ p * (n : ℚ) → k ≤ getWithdrawAmount p n) :=
  ⟨⟨Int.le_ceil _, fun _ hk => Int.ceil_le.mpr hk⟩,
   ⟨Int.floor_le _, fun _ hk => Int.le_floor.mpr hk⟩⟩

/-- C8 witness: at percentage 3/2 the deposit for minting 5 is at most 8. -/
theorem getDepositAmount_getWithdrawAmount_rounding_witness :
    getDepositAmount (3 / 2) 5 ≤ 8 :=
  ((getDepositAmount_getWithdrawAmount_rounding (3 / 2) 5 7).1).2 8 (by norm_num)

/-- C9 (corrected statement): for a positive maximum and a list within it,
`updateListWs` puts the new element first and never exceeds the maximum — a
full list loses its last element and keeps its length, a shorter list grows
by exactly one with nothing removed.  (With maximum 0 the element is still
prepended and the bound is broken.) -/
theorem updateListWs_spec {α : Type} (list : List α) (newEl : α) (max : Nat)
    (hle : list.length ≤ max) (hmax : 1 ≤ max) :
    (updateListWs list newEl max).head? = some newEl ∧
    (updateListWs list newEl max).length ≤ max ∧
    (list.length = max →
      (updateListWs list newEl max).length = max ∧
      (updateListWs list newEl max).tail = list.dropLast) ∧
    (list.length < max →
      (updateListWs list newEl max).length = list.length + 1 ∧
      (updateListWs list newEl max).tail = list) := by
  unfold updateListWs
  by_cases h : list.length = max
  · rw [if_pos h]
    have hlen : (list.dropLast).length = list.length - 1 := List.length_dropLast list
    refine ⟨rfl, ?_, fun _ => ⟨?_, rfl⟩, fun hlt => absurd h (Nat.ne_of_lt hlt)⟩
    · simp only [List.length_cons, hlen]
      omega
    · simp only [List.length_cons, hlen]
      omega
  · rw [if_neg h]
    have hlt : list.length < max := lt_of_le_of_ne hle h
    exact ⟨rfl, by simp only [List.length_cons]; omega,
      fun heq => absurd heq h, fun _ => ⟨by simp, rfl⟩⟩

/-- C9 witness: prepending 9 to the two-element list [1, 2] under maximum 3
puts 9 first. -/
theorem updateListWs_spec_witness :
    (updateListWs [1, 2] 9 3).head? = some 9 :=
  (updateListWs_spec [1, 2] 9 3 (by decide) (by decide)).1

/-- C9 counterexample: with maximum 0 the empty list satisfies the length
bound, yet after the update the list is nonempty, so its length exceeds the
maximum. -/
theorem updateListWs_max_zero_overflow :
    ([] : List Nat).length ≤ 0 ∧ 0 < (updateListWs ([] : List Nat) 7 0).length := by
  decide

/-- C10: melting an amount never pays out more than the deposit required to
mint it — the same percentage is applied, rounded down for the withdrawal
and up for the deposit. -/
theorem getWithdrawAmount_le_getDepositAmount (p : ℚ) (amount : Int) :
    getWithdrawAmount p amount ≤ getDepositAmount p amount :=
  Int.floor_le_ceil _
